import Mathlib

/-
Shallow embedding of the Kalamar item model.

Source files embedded:
  src/src/kalamar/item.py          (classes BaseItem, AtomItem, ItemProperties)
  src/kalamar/tests/test_site.py   (tests of the Site registry; the Site class
                                    itself is not in the sources, so it is
                                    modelled from the specification)

Python dictionaries are embedded as insertion-ordered association lists over
String keys: lookup returns the binding of the first matching key, update
replaces the first matching binding in place or appends a fresh one at the
end, exactly matching dict semantics for the operations the sources use.
-/

/-- Python values as far as the embedded code observes them: the absent
marker None, strings and integers. -/
inductive PyVal where
  | none
  | str (s : String)
  | int (n : Int)
deriving DecidableEq, Repr

/-- Python exceptions raised by the embedded code. A NameError carries the
unresolved global name. -/
inductive PyErr where
  | nameError (missing : String)
deriving DecidableEq, Repr

/-- Python dict lookup on an association list: the first binding of the key,
if any. -/
def dictGet {α : Type} : List (String × α) → String → Option α
  | [], _ => Option.none
  | p :: l, k => if p.1 == k then some p.2 else dictGet l k

/-- Python dict update on an association list: replace the first binding of
the key in place, or append a fresh binding at the end. -/
def dictSet {α : Type} : List (String × α) → String → α → List (String × α)
  | [], k, v => [(k, v)]
  | p :: l, k, v => if p.1 == k then (p.1, v) :: l else p :: dictSet l k v

/-- The per-item data that `ItemProperties` reads through its `_item`
back-reference: the `_properties_aliases` table and the concrete override of
the abstract raw-read hook `_read_property_from_data` (which returns None for
absent properties). The hook is modelled as a pure function of the requested
name, matching its contract of parsing the fixed backing data. -/
structure Item where
  properties_aliases : List (String × String)
  read_property_from_data : String → PyVal

/-- State of an `ItemProperties` store: the forced values given to the
constructor, the inherited dict contents acting as the cache, and `hook_calls`,
a ghost log recording the argument of every call the store makes to
`_read_property_from_data` (it instruments the embedding for stating the
memoization property and is not part of the Python object state). -/
structure ItemProperties where
  forced_values : List (String × PyVal)
  cache : List (String × PyVal)
  hook_calls : List String
deriving DecidableEq, Repr

/-- `ItemProperties._alias`: resolve a property name through the owning item
alias table, defaulting to the name itself
(`self._item._properties_aliases.get(prop_name, prop_name)`). -/
def ItemProperties.aliasOf (it : Item) (prop_name : String) : String :=
  match dictGet it.properties_aliases prop_name with
  | some canonical => canonical
  | Option.none => prop_name

/-- `ItemProperties.__getitem__`: try `forced_values[key]` with the requested
(unaliased) key first; on KeyError try the inherited dict at the aliased key;
on KeyError call `_read_property_from_data` with the aliased key, store the
result in the dict under the aliased key, and return it. Returns the value
together with the updated store. -/
def ItemProperties.getitem (it : Item) (st : ItemProperties) (key : String) :
    PyVal × ItemProperties :=
  match dictGet st.forced_values key with
  | some res => (res, st)
  | Option.none =>
    match dictGet st.cache (ItemProperties.aliasOf it key) with
    | some res => (res, st)
    | Option.none =>
      let r := it.read_property_from_data (ItemProperties.aliasOf it key)
      (r, { st with
              cache := dictSet st.cache (ItemProperties.aliasOf it key) r,
              hook_calls := st.hook_calls ++ [ItemProperties.aliasOf it key] })

/-- External write `properties[key] = value`: `ItemProperties` defines no
custom `__setitem__`, so this is the inherited dict update on the raw key,
with no alias resolution and no effect on `forced_values`. -/
def ItemProperties.setitem (st : ItemProperties) (key : String) (value : PyVal) :
    ItemProperties :=
  { st with cache := dictSet st.cache key value }

/-- `AtomItem.read`: alias for `self.properties["_content"]`. -/
def AtomItem.read (it : Item) (st : ItemProperties) : PyVal × ItemProperties :=
  ItemProperties.getitem it st "_content"

/-- `AtomItem.write`: alias for `self.properties["_content"] = value`. -/
def AtomItem.write (st : ItemProperties) (value : PyVal) : ItemProperties :=
  ItemProperties.setitem st "_content" value

/-- `BaseItem.matches`: the first statement reads
`self.properties[prop_name]` (with its cache side effect); the second
statement, `value = _convert_value_type(prop_name, value)`, resolves
`_convert_value_type` as a module-level global of `item.py`, which is never
defined (the identity hook of that name exists only as a method, reachable
as `self._convert_value_type`), so every call raises
`NameError: name _convert_value_type is not defined` before the operator
table is ever consulted. The method body also contains no return statement,
so even under a repaired name lookup it would return None, discarding the
operator result. The pair returned is the raised exception together with the
store state left behind by the property read. -/
def BaseItem.matches (it : Item) (st : ItemProperties) (prop_name : String)
    (operator : String) (value : PyVal) : Except PyErr PyVal × ItemProperties :=
  let r := ItemProperties.getitem it st prop_name
  (Except.error (PyErr.nameError "_convert_value_type"), r.2)

/-- Resolution order as the specification words it: first alias the requested
name, then consult the forced values under the aliased name, then the cache,
then the raw-read hook. Written from the specification for comparison with
`ItemProperties.getitem`, which consults the forced values under the
unaliased name. -/
def ItemProperties.getitemSpecOrder (it : Item) (st : ItemProperties)
    (key : String) : PyVal × ItemProperties :=
  match dictGet st.forced_values (ItemProperties.aliasOf it key) with
  | some res => (res, st)
  | Option.none =>
    match dictGet st.cache (ItemProperties.aliasOf it key) with
    | some res => (res, st)
    | Option.none =>
      let r := it.read_property_from_data (ItemProperties.aliasOf it key)
      (r, { st with
              cache := dictSet st.cache (ItemProperties.aliasOf it key) r,
              hook_calls := st.hook_calls ++ [ItemProperties.aliasOf it key] })

/-- Run a sequence of property lookups, threading the store state. -/
def runGets (it : Item) : ItemProperties → List String → ItemProperties
  | st, [] => st
  | st, k :: ks => runGets it (ItemProperties.getitem it st k).2 ks

/-- Invariant tying the ghost call log to the cache: every aliased key has
been passed to the raw-read hook at most once, and a key that has been passed
to the hook has a cache entry. It holds of any freshly constructed store
(empty log) and is preserved by lookups. -/
def StoreInv (st : ItemProperties) : Prop :=
  ∀ c, st.hook_calls.count c ≤ 1 ∧
    (c ∈ st.hook_calls → (dictGet st.cache c).isSome = true)

/-- Registration failures of the Site registry. -/
inductive RegError where
  | duplicateName
  | duplicateAccessPoint
deriving DecidableEq, Repr

/-- Modelled from the spec: the `Site` class is not among the sources (only
`test_site.py` exercises it). A site holds a table binding collection names
to access points; access points are identified by an identity token (a
natural number), since registration compares instance identity. -/
structure Site where
  access_points : List (String × Nat)
deriving DecidableEq, Repr

/-- Modelled from the spec: `Site.register(name, accessPoint)` fails with
duplicate-access-point when the access point is already registered under any
name (including this very name, so that check comes first), fails with
duplicate-name when the name is already bound, and otherwise inserts the
binding. On failure the bindings are returned unchanged. -/
def Site.register (s : Site) (name : String) (ap : Nat) :
    Site × Option RegError :=
  if s.access_points.any (fun b => b.2 == ap) then
    (s, some RegError.duplicateAccessPoint)
  else if s.access_points.any (fun b => b.1 == name) then
    (s, some RegError.duplicateName)
  else
    ({ access_points := s.access_points ++ [(name, ap)] }, Option.none)

/-- A concrete item with no aliases whose raw data is empty (every raw read
returns the absent marker). -/
def itPlain : Item :=
  { properties_aliases := [], read_property_from_data := fun _ => PyVal.none }

/-- A concrete item whose alias table maps "a" to the canonical name "c" and
whose raw data binds "c" to the string "w". -/
def itAlias : Item :=
  { properties_aliases := [("a", "c")],
    read_property_from_data := fun k => if k == "c" then PyVal.str "w" else PyVal.none }

/-- A fresh store with no forced values. -/
def stEmpty : ItemProperties :=
  { forced_values := [], cache := [], hook_calls := [] }

/-- A fresh store forcing "x" to the string "a". -/
def stXa : ItemProperties :=
  { forced_values := [("x", PyVal.str "a")], cache := [], hook_calls := [] }

/-- A fresh store forcing the canonical name "c" to the string "v". -/
def stForcedCanon : ItemProperties :=
  { forced_values := [("c", PyVal.str "v")], cache := [], hook_calls := [] }

/-- A fresh store forcing "content" (no leading underscore) to "hello". -/
def stContent : ItemProperties :=
  { forced_values := [("content", PyVal.str "hello")], cache := [], hook_calls := [] }

/-- A fresh store forcing the reserved name "_content" to "hello". -/
def stUContent : ItemProperties :=
  { forced_values := [("_content", PyVal.str "hello")], cache := [], hook_calls := [] }

/-- Characterization of dict lookup after dict update. -/
theorem dictGet_dictSet {α : Type} (l : List (String × α)) (k : String)
    (v : α) (k2 : String) :
    dictGet (dictSet l k v) k2 = if k2 = k then some v else dictGet l k2 := by
  induction l with
  | nil =>
    by_cases h : k2 = k
    · subst h; simp [dictGet, dictSet]
    · have h2 : ¬ k = k2 := fun e => h e.symm
      simp [dictGet, dictSet, h, h2]
  | cons p l ih =>
    by_cases hp : p.1 = k
    · by_cases h : k2 = k
      · subst h
        simp [dictGet, dictSet, hp]
      · have h2 : ¬ k = k2 := fun e => h e.symm
        have hpk2 : ¬ p.1 = k2 := by rw [hp]; exact h2
        simp [dictGet, dictSet, hp, hpk2, h, h2]
    · by_cases hq : p.1 = k2
      · have hk : ¬ k2 = k := by rw [← hq]; exact fun e => hp e
        simp [dictGet, dictSet, hp, hq, hk]
      · simp [dictGet, dictSet, hp, hq, ih]

/-- Dict lookup of the key just written. -/
theorem dictGet_dictSet_self {α : Type} (l : List (String × α)) (k : String)
    (v : α) : dictGet (dictSet l k v) k = some v := by
  simp [dictGet_dictSet]

/-- Dict lookup of a different key is unaffected by an update. -/
theorem dictGet_dictSet_ne {α : Type} (l : List (String × α)) (k : String)
    (v : α) (k2 : String) (h : k2 ≠ k) :
    dictGet (dictSet l k v) k2 = dictGet l k2 := by
  simp [dictGet_dictSet, h]

/-- A lookup that hits the forced values returns the forced value and leaves
the store untouched. -/
theorem getitem_forced (it : Item) (st : ItemProperties) (key : String)
    (res : PyVal) (h : dictGet st.forced_values key = some res) :
    ItemProperties.getitem it st key = (res, st) := by
  simp [ItemProperties.getitem, h]

/-- A lookup that misses the forced values and hits the cache at the aliased
key returns the cached value and leaves the store untouched. -/
theorem getitem_cached (it : Item) (st : ItemProperties) (key : String)
    (res : PyVal) (h1 : dictGet st.forced_values key = Option.none)
    (h2 : dictGet st.cache (ItemProperties.aliasOf it key) = some res) :
    ItemProperties.getitem it st key = (res, st) := by
  simp [ItemProperties.getitem, h1, h2]

/-- A lookup that misses both the forced values and the cache calls the
raw-read hook on the aliased key, caches its result there, logs the call and
returns the result. -/
theorem getitem_miss (it : Item) (st : ItemProperties) (key : String)
    (h1 : dictGet st.forced_values key = Option.none)
    (h2 : dictGet st.cache (ItemProperties.aliasOf it key) = Option.none) :
    ItemProperties.getitem it st key =
      (it.read_property_from_data (ItemProperties.aliasOf it key),
       { st with
           cache := dictSet st.cache (ItemProperties.aliasOf it key)
             (it.read_property_from_data (ItemProperties.aliasOf it key)),
           hook_calls := st.hook_calls ++ [ItemProperties.aliasOf it key] }) := by
  simp [ItemProperties.getitem, h1, h2]

/-- Lookups never change the forced values. -/
theorem getitem_forced_values_eq (it : Item) (st : ItemProperties)
    (key : String) :
    (ItemProperties.getitem it st key).2.forced_values = st.forced_values := by
  cases h1 : dictGet st.forced_values key with
  | some res => simp [ItemProperties.getitem, h1]
  | none =>
    cases h2 : dictGet st.cache (ItemProperties.aliasOf it key) with
    | some res => simp [ItemProperties.getitem, h1, h2]
    | none => simp [ItemProperties.getitem, h1, h2]

/-- An existing cache entry survives any lookup with its value intact. -/
theorem getitem_cache_mono (it : Item) (st : ItemProperties) (key c : String)
    (v : PyVal) (h : dictGet st.cache c = some v) :
    dictGet (ItemProperties.getitem it st key).2.cache c = some v := by
  cases h1 : dictGet st.forced_values key with
  | some res => simpa [ItemProperties.getitem, h1] using h
  | none =>
    cases h2 : dictGet st.cache (ItemProperties.aliasOf it key) with
    | some res => simpa [ItemProperties.getitem, h1, h2] using h
    | none =>
      have hne : c ≠ ItemProperties.aliasOf it key := by
        intro e
        rw [e, h2] at h
        exact Option.noConfusion h
      simpa [ItemProperties.getitem, h1, h2, dictGet_dictSet, hne] using h

/-- Sequences of lookups never change the forced values. -/
theorem runGets_forced_values_eq (it : Item) (ks : List String)
    (st : ItemProperties) :
    (runGets it st ks).forced_values = st.forced_values := by
  induction ks generalizing st with
  | nil => rfl
  | cons k ks ih =>
    rw [runGets, ih, getitem_forced_values_eq]

/-- An existing cache entry survives any sequence of lookups. -/
theorem runGets_cache_mono (it : Item) (ks : List String)
    (st : ItemProperties) (c : String) (v : PyVal)
    (h : dictGet st.cache c = some v) :
    dictGet (runGets it st ks).cache c = some v := by
  induction ks generalizing st with
  | nil => exact h
  | cons k ks ih =>
    rw [runGets]
    exact ih _ (getitem_cache_mono it st k c v h)

/-- A single lookup preserves the call-log invariant. -/
theorem getitem_inv (it : Item) (st : ItemProperties) (key : String)
    (h : StoreInv st) : StoreInv (ItemProperties.getitem it st key).2 := by
  cases h1 : dictGet st.forced_values key with
  | some res => simpa [ItemProperties.getitem, h1] using h
  | none =>
    cases h2 : dictGet st.cache (ItemProperties.aliasOf it key) with
    | some res => simpa [ItemProperties.getitem, h1, h2] using h
    | none =>
      have hnotmem : ItemProperties.aliasOf it key ∉ st.hook_calls := by
        intro hm
        have hs := (h (ItemProperties.aliasOf it key)).2 hm
        rw [h2] at hs
        simp at hs
      rw [getitem_miss it st key h1 h2]
      intro c
      by_cases hc : c = ItemProperties.aliasOf it key
      · subst hc
        refine ⟨?_, ?_⟩
        · have h0 : st.hook_calls.count (ItemProperties.aliasOf it key) = 0 :=
            List.count_eq_zero.mpr hnotmem
          simp [List.count_append, h0]
        · intro _
          simp [dictGet_dictSet_self]
      · refine ⟨?_, ?_⟩
        · have hcount := (h c).1
          have h4 : List.count c [ItemProperties.aliasOf it key] = 0 :=
            List.count_eq_zero.mpr (by simp [hc])
          simp only [List.count_append, h4]
          omega
        · intro hm
          rcases List.mem_append.mp hm with hm1 | hm2
          · have hs := (h c).2 hm1
            simpa [dictGet_dictSet, hc] using hs
          · simp at hm2
            exact absurd hm2 hc

/-- A sequence of lookups preserves the call-log invariant. -/
theorem runGets_inv (it : Item) (ks : List String) (st : ItemProperties)
    (h : StoreInv st) : StoreInv (runGets it st ks) := by
  induction ks generalizing st with
  | nil => exact h
  | cons k ks ih =>
    rw [runGets]
    exact ih _ (getitem_inv it st k h)

/-- C1: the claim says `matches(x, "=", v)` returns a boolean that is true
iff the stored value equals the converted value, with `!=`, `~=`, `~!=`
behaving accordingly. The code cannot return any boolean: after the property
read, `value = _convert_value_type(prop_name, value)` raises a NameError
(the name is only defined as a method, never as the module-level global the
code looks up), and the body also has no return statement. Evaluated here on
an item whose property "x" is forced to "a" and compared with "=" against
"a": the call raises instead of returning True. -/
theorem c1_matches_returns_no_boolean :
    BaseItem.matches itPlain stXa "x" "=" (PyVal.str "a")
      = (Except.error (PyErr.nameError "_convert_value_type"), stXa) := rfl

/-- C6: the claim says an operator symbol absent from the operator table
makes `matches` fail with the operator-not-available condition. The code
raises NameError on the `_convert_value_type` lookup before the operator
table is ever consulted (and the name `OperatorNotAvailable` is itself
unbound in the module), so the unknown operator "?=" surfaces as a NameError,
never as operator-not-available. -/
theorem c6_unknown_operator_not_reached :
    BaseItem.matches itPlain stXa "x" "?=" (PyVal.str "a")
      = (Except.error (PyErr.nameError "_convert_value_type"), stXa) := rfl

/-- C3: a property name bound in the forced values is returned from the
forced values, for every item (hence whatever the raw-read hook would
return), with the store unchanged — in particular the raw-read hook is not
invoked (the ghost call log is unchanged). -/
theorem c3_forced_shadows_hook (it : Item) (st : ItemProperties) (p : String)
    (v : PyVal) (h : dictGet st.forced_values p = some v) :
    ItemProperties.getitem it st p = (v, st) :=
  getitem_forced it st p v h

/-- Witness for C3 at the store forcing "x" to "a". -/
theorem c3_forced_shadows_hook_witness :
    dictGet stXa.forced_values "x" = some (PyVal.str "a") ∧
    ItemProperties.getitem itPlain stXa "x" = (PyVal.str "a", stXa) :=
  ⟨rfl, c3_forced_shadows_hook itPlain stXa "x" (PyVal.str "a") rfl⟩

/-- C4: for a name not in the forced values, every lookup after the first
returns the value of the first, with no further state change, across any
interleaved sequence of other lookups; across any sequence of lookups the
raw-read hook runs at most once per distinct aliased key; and a raw-read
result of None is cached and returned rather than raising. -/
theorem c4_memoized_lookup (it : Item) (st : ItemProperties) (p : String)
    (hf : dictGet st.forced_values p = Option.none) (hinv : StoreInv st) :
    (∀ ks,
      ItemProperties.getitem it
          (runGets it (ItemProperties.getitem it st p).2 ks) p
        = ((ItemProperties.getitem it st p).1,
           runGets it (ItemProperties.getitem it st p).2 ks)) ∧
    (∀ ks c, (runGets it st ks).hook_calls.count c ≤ 1) ∧
    (dictGet st.cache (ItemProperties.aliasOf it p) = Option.none →
      it.read_property_from_data (ItemProperties.aliasOf it p) = PyVal.none →
        (ItemProperties.getitem it st p).1 = PyVal.none ∧
        dictGet (ItemProperties.getitem it st p).2.cache
            (ItemProperties.aliasOf it p) = some PyVal.none) := by
  refine ⟨?_, ?_, ?_⟩
  · intro ks
    have hA : dictGet (ItemProperties.getitem it st p).2.cache
        (ItemProperties.aliasOf it p)
          = some (ItemProperties.getitem it st p).1 := by
      cases h2 : dictGet st.cache (ItemProperties.aliasOf it p) with
      | some w =>
        rw [getitem_cached it st p w hf h2]
        exact h2
      | none =>
        rw [getitem_miss it st p hf h2]
        exact dictGet_dictSet_self _ _ _
    have hforced : dictGet
        (runGets it (ItemProperties.getitem it st p).2 ks).forced_values p
          = Option.none := by
      rw [runGets_forced_values_eq, getitem_forced_values_eq]
      exact hf
    have hcache : dictGet
        (runGets it (ItemProperties.getitem it st p).2 ks).cache
          (ItemProperties.aliasOf it p)
            = some (ItemProperties.getitem it st p).1 :=
      runGets_cache_mono it ks _ _ _ hA
    exact getitem_cached it _ p _ hforced hcache
  · intro ks c
    exact ((runGets_inv it ks st hinv) c).1
  · intro hc hr
    rw [getitem_miss it st p hf hc]
    simp [hr, dictGet_dictSet_self]

/-- Witness for C4 on the empty store: the repeat lookup of "k" right after
the first one returns the same value and leaves the state unchanged. -/
theorem c4_memoized_lookup_witness :
    dictGet stEmpty.forced_values "k" = Option.none ∧
    ItemProperties.getitem itPlain
        (runGets itPlain (ItemProperties.getitem itPlain stEmpty "k").2 []) "k"
      = ((ItemProperties.getitem itPlain stEmpty "k").1,
         runGets itPlain (ItemProperties.getitem itPlain stEmpty "k").2 []) :=
  ⟨rfl,
   (c4_memoized_lookup itPlain stEmpty "k" rfl
      (fun c => ⟨by simp [stEmpty], by simp [stEmpty]⟩)).1 []⟩

/-- C5 counterexample: the claim puts alias resolution before the forced
values, but the code consults the forced values under the raw requested
name. With the alias "a" mapped to "c", "c" forced to "v" and the raw data
binding "c" to "w", a lookup of "a" returns "w" while the resolution order
the claim describes would return the forced "v". -/
theorem c5_order_counterexample :
    (ItemProperties.getitem itAlias stForcedCanon "a").1 = PyVal.str "w" ∧
    (ItemProperties.getitemSpecOrder itAlias stForcedCanon "a").1
      = PyVal.str "v" ∧
    (ItemProperties.getitem itAlias stForcedCanon "a").1
      ≠ (ItemProperties.getitemSpecOrder itAlias stForcedCanon "a").1 :=
  ⟨rfl, rfl, by decide⟩

/-- C5 (amended): resolution order of a lookup — (1) if the requested name,
unaliased, is in the forced values, its forced value is returned; (2)
otherwise the name is resolved through the alias table; (3) a cached value
under the aliased name is returned if present; (4) otherwise the raw-read
hook is called with the aliased name, its result is cached under the aliased
name and returned. -/
theorem c5_resolution_order (it : Item) (st : ItemProperties) (p : String) :
    (∀ v, dictGet st.forced_values p = some v →
        ItemProperties.getitem it st p = (v, st)) ∧
    (dictGet st.forced_values p = Option.none →
      ∀ v, dictGet st.cache (ItemProperties.aliasOf it p) = some v →
        ItemProperties.getitem it st p = (v, st)) ∧
    (dictGet st.forced_values p = Option.none →
      dictGet st.cache (ItemProperties.aliasOf it p) = Option.none →
        ItemProperties.getitem it st p =
          (it.read_property_from_data (ItemProperties.aliasOf it p),
           { st with
               cache := dictSet st.cache (ItemProperties.aliasOf it p)
                 (it.read_property_from_data (ItemProperties.aliasOf it p)),
               hook_calls :=
                 st.hook_calls ++ [ItemProperties.aliasOf it p] })) :=
  ⟨fun v h => getitem_forced it st p v h,
   fun h1 v h2 => getitem_cached it st p v h1 h2,
   fun h1 h2 => getitem_miss it st p h1 h2⟩

/-- Witness for C5 (amended) on the store forcing "c" to "v". -/
theorem c5_resolution_order_witness :
    dictGet stForcedCanon.forced_values "c" = some (PyVal.str "v") ∧
    ItemProperties.getitem itAlias stForcedCanon "c"
      = (PyVal.str "v", stForcedCanon) :=
  ⟨rfl, (c5_resolution_order itAlias stForcedCanon "c").1 (PyVal.str "v") rfl⟩

/-- C2: registering an access point already registered under any name
(including this one) fails with duplicate-access-point; registering a fresh
access point under an already-bound name fails with duplicate-name; in both
failure cases the bindings are returned unchanged; otherwise the binding is
inserted. The Site class is modelled from the spec (only its tests are among
the sources). -/
theorem c2_register_invariants (s : Site) (name : String) (ap : Nat) :
    (s.access_points.any (fun b => b.2 == ap) = true →
      Site.register s name ap = (s, some RegError.duplicateAccessPoint)) ∧
    (s.access_points.any (fun b => b.2 == ap) = false →
      s.access_points.any (fun b => b.1 == name) = true →
      Site.register s name ap = (s, some RegError.duplicateName)) ∧
    (s.access_points.any (fun b => b.2 == ap) = false →
      s.access_points.any (fun b => b.1 == name) = false →
      Site.register s name ap =
        ({ access_points := s.access_points ++ [(name, ap)] },
         Option.none)) := by
  refine ⟨?_, ?_, ?_⟩
  · intro h1
    simp [Site.register, h1]
  · intro h1 h2
    simp [Site.register, h1, h2]
  · intro h1 h2
    simp [Site.register, h1, h2]

/-- Witness for C2: the scenario of the tests — re-registering access point
1 under a fresh name fails with duplicate-access-point, registering access
point 2 under the taken name fails with duplicate-name, and registering into
the empty site inserts the binding. -/
theorem c2_register_invariants_witness :
    Site.register { access_points := [("things", 1)] } "stuff" 1
      = ({ access_points := [("things", 1)] },
         some RegError.duplicateAccessPoint) ∧
    Site.register { access_points := [("things", 1)] } "things" 2
      = ({ access_points := [("things", 1)] }, some RegError.duplicateName) ∧
    Site.register { access_points := [] } "things" 1
      = ({ access_points := [("things", 1)] }, Option.none) :=
  ⟨(c2_register_invariants { access_points := [("things", 1)] } "stuff" 1).1
      (by decide),
   (c2_register_invariants { access_points := [("things", 1)] } "things" 2).2.1
      (by decide) (by decide),
   (c2_register_invariants { access_points := [] } "things" 1).2.2
      (by decide) (by decide)⟩

/-- C7 counterexample: the claim forces "content" to "hello" and expects
`read()` to return it, and expects a later `write("world")` to be visible.
But `read`/`write` use the reserved name "_content": with "content" forced,
`read()` returns the raw-read result (the absent marker here), not "hello";
and with the reserved "_content" forced to "hello", `write("world")` followed
by `read()` still returns "hello", because forced values shadow the written
cache entry. -/
theorem c7_scenario_counterexample :
    (AtomItem.read itPlain stContent).1 = PyVal.none ∧
    PyVal.none ≠ PyVal.str "hello" ∧
    (AtomItem.read itPlain (AtomItem.write stUContent (PyVal.str "world"))).1
      = PyVal.str "hello" ∧
    PyVal.str "hello" ≠ PyVal.str "world" :=
  ⟨rfl, by decide, rfl, by decide⟩

/-- C7 (amended): `read()` and `write(v)` alias getting and setting the
reserved "_content" property. When "_content" is among the forced values its
forced value is what `read()` returns, before and after any `write` (the
write stays shadowed); when "_content" is not forced (and not aliased to a
different name), `write(v)` followed by `read()` returns `v`. -/
theorem c7_atom_read_write (it : Item) (st : ItemProperties) (v w : PyVal) :
    (dictGet st.forced_values "_content" = some w →
      (AtomItem.read it st).1 = w) ∧
    (dictGet st.forced_values "_content" = some w →
      (AtomItem.read it (AtomItem.write st v)).1 = w) ∧
    (dictGet st.forced_values "_content" = Option.none →
      ItemProperties.aliasOf it "_content" = "_content" →
      AtomItem.read it (AtomItem.write st v) = (v, AtomItem.write st v)) := by
  refine ⟨?_, ?_, ?_⟩
  · intro h
    rw [AtomItem.read, getitem_forced it st "_content" w h]
  · intro h
    have h2 : dictGet (AtomItem.write st v).forced_values "_content"
        = some w := h
    rw [AtomItem.read, getitem_forced it _ "_content" w h2]
  · intro h ha
    have h2 : dictGet (AtomItem.write st v).forced_values "_content"
        = Option.none := h
    have h3 : dictGet (AtomItem.write st v).cache
        (ItemProperties.aliasOf it "_content") = some v := by
      rw [ha]
      exact dictGet_dictSet_self st.cache "_content" v
    rw [AtomItem.read]
    exact getitem_cached it _ "_content" v h2 h3

/-- Witness for C7 (amended): forced "_content" is read back, and on a store
with nothing forced the write-then-read round trip returns the written
value. -/
theorem c7_atom_read_write_witness :
    dictGet stUContent.forced_values "_content" = some (PyVal.str "hello") ∧
    (AtomItem.read itPlain stUContent).1 = PyVal.str "hello" ∧
    AtomItem.read itPlain (AtomItem.write stEmpty (PyVal.str "world"))
      = (PyVal.str "world", AtomItem.write stEmpty (PyVal.str "world")) :=
  ⟨rfl,
   (c7_atom_read_write itPlain stUContent (PyVal.str "world")
      (PyVal.str "hello")).1 rfl,
   (c7_atom_read_write itPlain stEmpty (PyVal.str "world")
      (PyVal.str "hello")).2.2 rfl rfl⟩

/-- C8 counterexample: the claim says a lookup of an alias and of its
canonical name always return identical values. With "a" aliased to "c", "c"
forced to "v" and the raw data binding "c" to "w", looking up "c" hits the
forced value "v" but looking up "a" misses the forced values (they are
consulted under the raw name) and reads "w" from the raw data. -/
theorem c8_alias_counterexample :
    ItemProperties.aliasOf itAlias "a" = "c" ∧
    (ItemProperties.getitem itAlias stForcedCanon "a").1 = PyVal.str "w" ∧
    (ItemProperties.getitem itAlias stForcedCanon "c").1 = PyVal.str "v" ∧
    (ItemProperties.getitem itAlias stForcedCanon "a").1
      ≠ (ItemProperties.getitem itAlias stForcedCanon "c").1 :=
  ⟨rfl, rfl, rfl, by decide⟩

/-- C8 (amended): when the alias table maps `a` to the canonical name `c`,
`c` is not itself aliased further, and neither `a` nor `c` is a key of the
forced values, then looking up `a` and looking up `c` return identical
values, the lookup of `a` leaves the shared cache entry keyed by `c`, and a
subsequent lookup of `c` reads that same entry without further state
change. -/
theorem c8_alias_shared_cache (it : Item) (st : ItemProperties) (a c : String)
    (h1 : ItemProperties.aliasOf it a = c)
    (h2 : ItemProperties.aliasOf it c = c)
    (h3 : dictGet st.forced_values a = Option.none)
    (h4 : dictGet st.forced_values c = Option.none) :
    (ItemProperties.getitem it st a).1 = (ItemProperties.getitem it st c).1 ∧
    dictGet (ItemProperties.getitem it st a).2.cache c
      = some (ItemProperties.getitem it st a).1 ∧
    ItemProperties.getitem it ((ItemProperties.getitem it st a).2) c
      = ((ItemProperties.getitem it st a).1,
         (ItemProperties.getitem it st a).2) := by
  cases hc : dictGet st.cache c with
  | some u =>
    have ga : ItemProperties.getitem it st a = (u, st) :=
      getitem_cached it st a u h3 (by rw [h1]; exact hc)
    have gc : ItemProperties.getitem it st c = (u, st) :=
      getitem_cached it st c u h4 (by rw [h2]; exact hc)
    rw [ga, gc]
    exact ⟨rfl, hc, rfl⟩
  | none =>
    have ha2 : dictGet st.cache (ItemProperties.aliasOf it a) = Option.none :=
      by rw [h1]; exact hc
    have hc2 : dictGet st.cache (ItemProperties.aliasOf it c) = Option.none :=
      by rw [h2]; exact hc
    rw [getitem_miss it st a h3 ha2, getitem_miss it st c h4 hc2, h1, h2]
    refine ⟨rfl, dictGet_dictSet_self _ _ _, ?_⟩
    have h5 : dictGet
        ({ st with
             cache := dictSet st.cache c (it.read_property_from_data c),
             hook_calls := st.hook_calls ++ [c] } :
           ItemProperties).forced_values c = Option.none := h4
    have h6 : dictGet
        ({ st with
             cache := dictSet st.cache c (it.read_property_from_data c),
             hook_calls := st.hook_calls ++ [c] } :
           ItemProperties).cache (ItemProperties.aliasOf it c)
        = some (it.read_property_from_data c) := by
      rw [h2]
      exact dictGet_dictSet_self _ _ _
    exact getitem_cached it _ c _ h5 h6

/-- Witness for C8 (amended), with "a" aliased to "c" over the empty store:
both lookups return the raw value of "c" and share the entry keyed "c". -/
theorem c8_alias_shared_cache_witness :
    (ItemProperties.getitem itAlias stEmpty "a").1
      = (ItemProperties.getitem itAlias stEmpty "c").1 ∧
    dictGet (ItemProperties.getitem itAlias stEmpty "a").2.cache "c"
      = some (ItemProperties.getitem itAlias stEmpty "a").1 ∧
    ItemProperties.getitem itAlias ((ItemProperties.getitem itAlias stEmpty "a").2) "c"
      = ((ItemProperties.getitem itAlias stEmpty "a").1,
         (ItemProperties.getitem itAlias stEmpty "a").2) :=
  c8_alias_shared_cache itAlias stEmpty "a" "c" rfl rfl rfl rfl

/-- C9: external writes bypass alias resolution while reads resolve aliases.
For a key that is not forced and is a fixed point of the alias table, the
set-then-get round trip returns the written value (and the read leaves the
state as the write left it). For a key aliased to a different canonical
name, the written value sits in the cache under the raw key, but a read of
that key resolves to the canonical name and returns exactly what it would
have returned before the write — so it does not return the written value
unless that value was already the read result. -/
theorem c9_write_then_read (it : Item) (st : ItemProperties) (k : String)
    (v : PyVal) :
    (dictGet st.forced_values k = Option.none →
      ItemProperties.aliasOf it k = k →
      ItemProperties.getitem it (ItemProperties.setitem st k v) k
        = (v, ItemProperties.setitem st k v)) ∧
    (ItemProperties.aliasOf it k ≠ k →
      dictGet (ItemProperties.setitem st k v).cache k = some v ∧
      (ItemProperties.getitem it (ItemProperties.setitem st k v) k).1
        = (ItemProperties.getitem it st k).1) := by
  constructor
  · intro hf ha
    have hf2 : dictGet (ItemProperties.setitem st k v).forced_values k
        = Option.none := hf
    have hc2 : dictGet (ItemProperties.setitem st k v).cache
        (ItemProperties.aliasOf it k) = some v := by
      rw [ha]
      exact dictGet_dictSet_self _ _ _
    exact getitem_cached it _ k v hf2 hc2
  · intro hne
    refine ⟨dictGet_dictSet_self _ _ _, ?_⟩
    cases hf : dictGet st.forced_values k with
    | some w =>
      have hf2 : dictGet (ItemProperties.setitem st k v).forced_values k
          = some w := hf
      rw [getitem_forced it _ k w hf2, getitem_forced it st k w hf]
    | none =>
      have hf2 : dictGet (ItemProperties.setitem st k v).forced_values k
          = Option.none := hf
      cases hcc : dictGet st.cache (ItemProperties.aliasOf it k) with
      | some u =>
        have hc2 : dictGet (ItemProperties.setitem st k v).cache
            (ItemProperties.aliasOf it k) = some u := by
          show dictGet (dictSet st.cache k v)
              (ItemProperties.aliasOf it k) = some u
          rw [dictGet_dictSet_ne st.cache k v _ hne]
          exact hcc
        rw [getitem_cached it _ k u hf2 hc2, getitem_cached it st k u hf hcc]
      | none =>
        have hc2 : dictGet (ItemProperties.setitem st k v).cache
            (ItemProperties.aliasOf it k) = Option.none := by
          show dictGet (dictSet st.cache k v)
              (ItemProperties.aliasOf it k) = Option.none
          rw [dictGet_dictSet_ne st.cache k v _ hne]
          exact hcc
        rw [getitem_miss it _ k hf2 hc2, getitem_miss it st k hf hcc]

/-- Witness for C9: the round trip on the unaliased, unforced key "k", and
the aliased key "a" whose write lands under "a" while the read resolves to
"c" and still returns the raw value of "c". -/
theorem c9_write_then_read_witness :
    ItemProperties.getitem itPlain
        (ItemProperties.setitem stEmpty "k" (PyVal.str "z")) "k"
      = (PyVal.str "z", ItemProperties.setitem stEmpty "k" (PyVal.str "z")) ∧
    dictGet (ItemProperties.setitem stEmpty "a" (PyVal.str "z")).cache "a"
      = some (PyVal.str "z") ∧
    (ItemProperties.getitem itAlias
        (ItemProperties.setitem stEmpty "a" (PyVal.str "z")) "a").1
      = (ItemProperties.getitem itAlias stEmpty "a").1 :=
  ⟨(c9_write_then_read itPlain stEmpty "k" (PyVal.str "z")).1 rfl rfl,
   ((c9_write_then_read itAlias stEmpty "a" (PyVal.str "z")).2
      (by decide)).1,
   ((c9_write_then_read itAlias stEmpty "a" (PyVal.str "z")).2
      (by decide)).2⟩

/-- C10: no store operation mutates the forced values — neither a lookup nor
an external write changes `forced_values`; for a forced key, a lookup keeps
returning the forced value even right after an external write of that key,
whose value is recorded in the cache yet invisible to reads; in particular
`AtomItem.write` followed by `AtomItem.read` returns the original forced
"_content", not the written value. -/
theorem c10_forced_immutable (it : Item) (st : ItemProperties) (k : String)
    (v w : PyVal) :
    (ItemProperties.getitem it st k).2.forced_values = st.forced_values ∧
    (ItemProperties.setitem st k v).forced_values = st.forced_values ∧
    (dictGet st.forced_values k = some w →
      ItemProperties.getitem it (ItemProperties.setitem st k v) k
          = (w, ItemProperties.setitem st k v) ∧
      dictGet (ItemProperties.setitem st k v).cache k = some v) ∧
    (dictGet st.forced_values "_content" = some w →
      (AtomItem.read it (AtomItem.write st v)).1 = w) := by
  refine ⟨getitem_forced_values_eq it st k, rfl, ?_, ?_⟩
  · intro h
    have h2 : dictGet (ItemProperties.setitem st k v).forced_values k
        = some w := h
    exact ⟨getitem_forced it _ k w h2, dictGet_dictSet_self _ _ _⟩
  · intro h
    have h2 : dictGet (AtomItem.write st v).forced_values "_content"
        = some w := h
    rw [AtomItem.read, getitem_forced it _ "_content" w h2]

/-- Witness for C10: with "_content" forced to "hello", writing "world" is
recorded in the cache but a read still returns "hello". -/
theorem c10_forced_immutable_witness :
    dictGet stUContent.forced_values "_content" = some (PyVal.str "hello") ∧
    ItemProperties.getitem itPlain
        (ItemProperties.setitem stUContent "_content" (PyVal.str "world"))
        "_content"
      = (PyVal.str "hello",
         ItemProperties.setitem stUContent "_content" (PyVal.str "world")) ∧
    (AtomItem.read itPlain (AtomItem.write stUContent (PyVal.str "world"))).1
      = PyVal.str "hello" :=
  ⟨rfl,
   ((c10_forced_immutable itPlain stUContent "_content" (PyVal.str "world")
      (PyVal.str "hello")).2.2.1 rfl).1,
   (c10_forced_immutable itPlain stUContent "_content" (PyVal.str "world")
      (PyVal.str "hello")).2.2.2 rfl⟩
